import Mathlib

/-! # Producer / consumer hand-off over a DMA copy (`src/main_rtos.c`)

A shallow embedding of `main_rtos.c`: the start-up routine `main_rtos`, the DMA
completion callback `set_udma_txfer_done`, and the two tasks `prvProducerTask`
and `prvConsumerTask`, which run interleaved with the DMA engine.

* C arrays of `uint32_t` are maps from an index to the word stored there.
* Each task is a program counter plus one function executing the statement the
  counter points at; a blocking call that cannot proceed yields `none`.
* The three actors are interleaved by a schedule, a list of `Action`s.
* Loops that may not terminate (`while (1);`, `for( ;; );`) take a fuel
  argument; `Run.running` is the answer of a run that is still executing when
  the fuel is used up.
* Every call that matters to the protocol is appended to a log, newest first.
-/

namespace DmaMemcpy

/-! ## Buffers and the fill loop -/

/-- Size of memcpy buffer: `#define MEM_BUFFER_SIZE 1024`. -/
def MEM_BUFFER_SIZE : Nat := 1024

/-- Number of values of a `uint32_t`. -/
def UINT32_MOD : Nat := 2 ^ 32

/-- An array `uint32_t x[MEM_BUFFER_SIZE]`, as the word held at each index. Only
indices below `MEM_BUFFER_SIZE` are cells of the array. -/
abbrev Buffer := Nat → Nat

/-- The assignment `b[i] = v`. -/
def store (b : Buffer) (i v : Nat) : Buffer :=
  fun j => if j = i then v else b j

/-- Body of the fill loop, `src_buffer[ui16Idx] = ui16Idx + passes;`. The sum of
the loop counter and the `unsigned int` pass counter is stored in a `uint32_t`
cell, so it is reduced modulo `2 ^ 32`. -/
def fillBody (passes : Nat) (src_buffer : Buffer) (ui16Idx : Nat) : Buffer :=
  store src_buffer ui16Idx ((ui16Idx + passes) % UINT32_MOD)

/-- The fill loop of `prvProducerTask`,
`for(ui16Idx = 0; ui16Idx < MEM_BUFFER_SIZE; ui16Idx++) { ... }`.
The counter runs through `0, 1, ..., MEM_BUFFER_SIZE - 1`; its type
`uint_fast16_t` holds every value up to `MEM_BUFFER_SIZE`, so it never wraps. -/
def generate (passes : Nat) (src_buffer : Buffer) : Buffer :=
  (List.range MEM_BUFFER_SIZE).foldl (fillBody passes) src_buffer

/-! ## Runs that may not terminate -/

/-- Answer of a run given some fuel: it returned a value in a final state, or it
is still executing (in the given state) when the fuel is used up. -/
inductive Run (σ ρ : Type) where
  | returned (s : σ) (r : ρ)
  | running (s : σ)

/-- The statement `while (1);` (also `for( ;; );`): an empty body repeated while
the constant `1` is non-zero, followed by the rest of the function `k`. One unit
of fuel pays for one test of the condition. -/
def whileOne {σ ρ : Type} : Nat → σ → (σ → Run σ ρ) → Run σ ρ
  | 0, s, _ => Run.running s
  | fuel + 1, s, k => if (1 : Int) ≠ 0 then whileOne fuel s k else k s

/-! ## Semaphores, events and the state of the running system -/

/-- The three binary semaphores: `isrSemaphore` (completion signal),
`sem_array[0]` (data ready) and `sem_array[1]` (data consumed). -/
inductive Sem where
  | isr
  | ready
  | consumed
  deriving DecidableEq, Repr

/-- Calls recorded in the log of the running system. -/
inductive Event where
  | createIsr
  | fill
  | led
  | request
  | dmaDone (ok : Bool)
  | give (x : Sem)
  | take (x : Sem)
  | write0
  | delay
  deriving DecidableEq, Repr

/-- Program counter of `prvProducerTask`: the statement executed next. -/
inductive ProducerPc where
  | create          -- line 197: isrSemaphore = xSemaphoreCreateBinary();
  | generate        -- lines 201-210: the fill loop
  | toggle          -- lines 213-217: toggle the LED
  | requestTransfer -- lines 219-225: dma_memcpy(...)
  | awaitTransferDone -- line 228: xSemaphoreTake(isrSemaphore, portMAX_DELAY)
  | signalReady     -- line 231: xSemaphoreGive(sem_array[0])
  | awaitConsumed   -- line 234: xSemaphoreTake(sem_array[1], portMAX_DELAY)
  deriving DecidableEq, Repr

/-- Program counter of `prvConsumerTask`: the statement executed next. -/
inductive ConsumerPc where
  | awaitReady      -- line 250: xSemaphoreTake(sem_array[0], portMAX_DELAY)
  | toggle          -- lines 253-257: toggle the LED
  | write           -- line 259: buffer[0] = 0;
  | delay           -- line 263: vTaskDelay(500 / portTICK_RATE_MS)
  | signalConsumed  -- line 266: xSemaphoreGive(sem_array[1])
  deriving DecidableEq, Repr

/-- State of the running system: both tasks, the three semaphores, the DMA
engine, the two buffers, the LED pin and the log. -/
structure State where
  /-- Next statement of the producer. -/
  ppc : ProducerPc
  /-- Next statement of the consumer. -/
  cpc : ConsumerPc
  /-- Whether `isrSemaphore` is signaled. -/
  isrSemaphore : Bool
  /-- Whether `sem_array[0]` is signaled. -/
  dataReady : Bool
  /-- Whether `sem_array[1]` is signaled. -/
  dataConsumed : Bool
  /-- Whether a DMA transfer has been requested and has not completed yet. -/
  dmaBusy : Bool
  /-- Whether the processor spins in the failure branch of the callback. -/
  halted : Bool
  /-- The local `passes` of the producer. -/
  passes : Nat
  /-- The local `src_buffer` of the producer (staging buffer). -/
  src_buffer : Buffer
  /-- The field `taskParams.buffer` (shared buffer). -/
  buffer : Buffer
  /-- Level of pin `GPIO_PIN_0` of port N. -/
  ledPin : Bool
  /-- Calls made so far, newest first. -/
  log : List Event

/-- System start: `taskParams` is a zero-initialised static, `src_buffer` is
initialised with `{0}`, `passes = 0`, no semaphore is signaled, and both tasks
are at their first statement. -/
def init : State where
  ppc := ProducerPc.create
  cpc := ConsumerPc.awaitReady
  isrSemaphore := false
  dataReady := false
  dataConsumed := false
  dmaBusy := false
  halted := false
  passes := 0
  src_buffer := fun _ => 0
  buffer := fun _ => 0
  ledPin := false
  log := []

/-- Whether semaphore `x` is signaled in `s`. -/
def signaled (s : State) : Sem → Bool
  | Sem.isr => s.isrSemaphore
  | Sem.ready => s.dataReady
  | Sem.consumed => s.dataConsumed

/-- Set the state of semaphore `x`. -/
def setSem (s : State) (x : Sem) (b : Bool) : State :=
  match x with
  | Sem.isr => { s with isrSemaphore := b }
  | Sem.ready => { s with dataReady := b }
  | Sem.consumed => { s with dataConsumed := b }

/-- Modelled from the spec: `xSemaphoreGive` of the RTOS, which is not part of
the sources. A give makes the semaphore signaled; a give on a semaphore that is
already signaled is dropped. The call is logged either way. -/
def xSemaphoreGive (x : Sem) (s : State) : State :=
  { setSem s x true with log := Event.give x :: s.log }

/-- Modelled from the spec: `xSemaphoreTake(x, portMAX_DELAY)` of the RTOS, which
is not part of the sources. The take turns a signaled semaphore empty; on an
empty semaphore the caller stays blocked (`none`). -/
def xSemaphoreTake (x : Sem) (s : State) : Option State :=
  if signaled s x then some { setSem s x false with log := Event.take x :: s.log }
  else none

/-- The LED toggle `ROM_GPIOPinWrite(.., GPIO_PIN_0, ~ROM_GPIOPinRead(..))`. -/
def toggleLed (s : State) : State :=
  { s with ledPin := !s.ledPin, log := Event.led :: s.log }

/-- Modelled from the spec: `dma_memcpy(dest, src, len, channel, cb)`, which is
not part of the sources. The request is handed to the DMA engine and the call
returns at once. -/
def dma_memcpy (s : State) : State :=
  { s with dmaBusy := true, log := Event.request :: s.log }

/-- The callback `set_udma_txfer_done(int status)`: on `status == 0` it gives
`isrSemaphore` and returns, otherwise it executes `while (1);`. -/
def set_udma_txfer_done (fuel : Nat) (status : Int) (s : State) : Run State Unit :=
  if status = 0 then
    Run.returned (xSemaphoreGive Sem.isr s) ()
  else
    whileOne fuel s (fun s1 => Run.returned s1 ())

/-- Modelled from the spec: the end of a DMA transfer, which is not part of the
sources. It happens only for a pending request; a successful transfer has copied
the `MEM_BUFFER_SIZE` words of the staging buffer into the shared buffer. The
engine then calls the callback from interrupt context, exactly once; while the
callback does not return no task runs. -/
def dmaComplete (fuel : Nat) (status : Int) (s : State) : Option State :=
  if s.dmaBusy then
    let copied : Buffer :=
      if status = 0 then fun i => if i < MEM_BUFFER_SIZE then s.src_buffer i else s.buffer i
      else s.buffer
    let s1 : State :=
      { s with dmaBusy := false, buffer := copied,
               log := Event.dmaDone (decide (status = 0)) :: s.log }
    match set_udma_txfer_done fuel status s1 with
    | Run.returned s2 _ => some s2
    | Run.running s2 => some { s2 with halted := true }
  else none

/-- One statement of `prvProducerTask`, the one its program counter points at.
`none` when the producer is blocked in a take. -/
def prvProducerTask (s : State) : Option State :=
  match s.ppc with
  | ProducerPc.create =>
      some { s with isrSemaphore := false, ppc := ProducerPc.generate,
                    log := Event.createIsr :: s.log }
  | ProducerPc.generate =>
      some { s with src_buffer := generate s.passes s.src_buffer,
                    ppc := ProducerPc.toggle, log := Event.fill :: s.log }
  | ProducerPc.toggle =>
      some { toggleLed s with ppc := ProducerPc.requestTransfer }
  | ProducerPc.requestTransfer =>
      some { dma_memcpy s with ppc := ProducerPc.awaitTransferDone }
  | ProducerPc.awaitTransferDone =>
      (xSemaphoreTake Sem.isr s).map fun s1 => { s1 with ppc := ProducerPc.signalReady }
  | ProducerPc.signalReady =>
      some { xSemaphoreGive Sem.ready s with ppc := ProducerPc.awaitConsumed }
  | ProducerPc.awaitConsumed =>
      (xSemaphoreTake Sem.consumed s).map fun s1 => { s1 with ppc := ProducerPc.generate }

/-- One statement of `prvConsumerTask`, the one its program counter points at.
`none` when the consumer is blocked in its take. -/
def prvConsumerTask (s : State) : Option State :=
  match s.cpc with
  | ConsumerPc.awaitReady =>
      (xSemaphoreTake Sem.ready s).map fun s1 => { s1 with cpc := ConsumerPc.toggle }
  | ConsumerPc.toggle =>
      some { toggleLed s with cpc := ConsumerPc.write }
  | ConsumerPc.write =>
      some { s with buffer := store s.buffer 0 0, cpc := ConsumerPc.delay,
                    log := Event.write0 :: s.log }
  | ConsumerPc.delay =>
      some { s with cpc := ConsumerPc.signalConsumed, log := Event.delay :: s.log }
  | ConsumerPc.signalConsumed =>
      some { xSemaphoreGive Sem.consumed s with cpc := ConsumerPc.awaitReady }

/-- The Process step of the consumer together with the give that ends it: the
four statements of lines 253-266, run one after the other from the state the take
of `dataReady` has left. -/
def consumerProcess (s : State) : Option State :=
  (((prvConsumerTask s).bind prvConsumerTask).bind prvConsumerTask).bind prvConsumerTask

/-- What the scheduler or the hardware lets happen next. -/
inductive Action where
  | producer
  | consumer
  | dma (status : Int)
  deriving DecidableEq, Repr

/-- One step of the system; `none` when the chosen actor cannot move. Nothing
moves once the processor spins in the callback. -/
def step? (fuel : Nat) (s : State) (a : Action) : Option State :=
  if s.halted then none
  else
    match a with
    | Action.producer => prvProducerTask s
    | Action.consumer => prvConsumerTask s
    | Action.dma status => dmaComplete fuel status s

/-- One slot of a schedule: the chosen actor moves if it can, else nothing
changes. -/
def next (fuel : Nat) (s : State) (a : Action) : State :=
  (step? fuel s a).getD s

/-- Run a schedule from state `s`. -/
def execFrom (fuel : Nat) (s : State) (sched : List Action) : State :=
  sched.foldl (next fuel) s

/-- Run a schedule from system start; the reachable states are its values. -/
def exec (fuel : Nat) (sched : List Action) : State :=
  execFrom fuel init sched

/-- The states reachable from system start by the step relation `step?`. -/
inductive Reachable (fuel : Nat) : State → Prop where
  | start : Reachable fuel init
  | step {s s1 : State} (a : Action) (h : Reachable fuel s) (hs : step? fuel s a = some s1) :
      Reachable fuel s1

/-! ## Start-up: `main_rtos` -/

/-- Values handed to `main_rtos` by the RTOS: the constant `pdTRUE` of its
headers, the handles returned by the two calls of `xSemaphoreCreateBinary`
(`0` is `NULL`) and the results of the two calls of `xTaskCreate`. -/
structure Env where
  pdTRUE : Int
  sem0 : Nat
  sem1 : Nat
  producerCreate : Int
  consumerCreate : Int

/-- The two application tasks. -/
inductive Task where
  | producer
  | consumer
  deriving DecidableEq, Repr

/-- Calls made by `main_rtos`. -/
inductive MainEvent where
  | clockFreqSet
  | init_led
  | init_dma
  | init_dma_memcpy
  | semaphoreCreate
  | taskCreate (t : Task)
  | startScheduler
  deriving DecidableEq, Repr

/-- Statics of `main_rtos` and the calls it has made, newest first. -/
structure MainState where
  pcSemaphores0 : Nat
  pcSemaphores1 : Nat
  task_result : Nat
  calls : List MainEvent
  deriving DecidableEq, Repr

/-- The C expressions occurring in the conditions of `main_rtos`: an operand
whose value is known (the result of the call of `xTaskCreate`, the constant
`pdTRUE`), the comparison `a != b`, and the assignment `task_result = rhs`. -/
inductive CExpr where
  | value (v : Int)
  | ne (a b : CExpr)
  | assignTaskResult (rhs : CExpr)
  deriving DecidableEq, Repr

/-- Value of a C expression and the content of `task_result` after it, given the
content of `task_result` before it. A comparison yields `1` or `0`; an
assignment converts its right-hand side to `uint32_t`, stores it, and has the
stored value as its own value. -/
def CExpr.eval : CExpr → Nat → Int × Nat
  | CExpr.value v, tr => (v, tr)
  | CExpr.ne a b, tr =>
      let x := a.eval tr
      let y := b.eval x.2
      (if x.1 ≠ y.1 then 1 else 0, y.2)
  | CExpr.assignTaskResult rhs, tr =>
      let x := rhs.eval tr
      let stored := (x.1 % (UINT32_MOD : Int)).toNat
      ((stored : Int), stored)

/-- The condition as written, `task_result = xTaskCreate(...) != pdTRUE`. In C
`!=` binds tighter than `=`, so this is `task_result = (xTaskCreate(...) != pdTRUE)`. -/
def taskCreateCond (created pdTRUE : Int) : CExpr :=
  CExpr.assignTaskResult (CExpr.ne (CExpr.value created) (CExpr.value pdTRUE))

/-- The other reading, `(task_result = xTaskCreate(...)) != pdTRUE`, which the
code does not have. -/
def taskCreateCondStatusStored (created pdTRUE : Int) : CExpr :=
  CExpr.ne (CExpr.assignTaskResult (CExpr.value created)) (CExpr.value pdTRUE)

/-- Lines 177-180 of `main_rtos`: `vTaskStartScheduler(); for( ;; ); return 0;`. -/
def startScheduler (fuel : Nat) (s : MainState) : Run MainState Int :=
  let s1 : MainState := { s with calls := MainEvent.startScheduler :: s.calls }
  whileOne fuel s1 (fun s2 => Run.returned s2 0)

/-- Lines 161-180 of `main_rtos`: creation of the consumer task, the halt loop
taken when the condition is non-zero, then the start of the scheduler. -/
def createConsumer (fuel : Nat) (env : Env) (s : MainState) : Run MainState Int :=
  let c := (taskCreateCond env.consumerCreate env.pdTRUE).eval s.task_result
  let s1 : MainState :=
    { s with task_result := c.2, calls := MainEvent.taskCreate Task.consumer :: s.calls }
  if c.1 ≠ 0 then whileOne fuel s1 (startScheduler fuel) else startScheduler fuel s1

/-- The function `main_rtos`: hardware set-up, creation of the two hand-off
semaphores, `return 1` when one of them is `NULL`, creation of the producer task
with its halt loop, then the rest. -/
def main_rtos (fuel : Nat) (env : Env) : Run MainState Int :=
  let s0 : MainState :=
    { pcSemaphores0 := 0, pcSemaphores1 := 0, task_result := 0,
      calls := [MainEvent.init_dma_memcpy, MainEvent.init_dma, MainEvent.init_led,
                MainEvent.clockFreqSet] }
  let s1 : MainState :=
    { s0 with pcSemaphores0 := env.sem0, calls := MainEvent.semaphoreCreate :: s0.calls }
  let s2 : MainState :=
    { s1 with pcSemaphores1 := env.sem1, calls := MainEvent.semaphoreCreate :: s1.calls }
  if s2.pcSemaphores0 = 0 ∨ s2.pcSemaphores1 = 0 then
    Run.returned s2 1
  else
    let c := (taskCreateCond env.producerCreate env.pdTRUE).eval s2.task_result
    let s3 : MainState :=
      { s2 with task_result := c.2, calls := MainEvent.taskCreate Task.producer :: s2.calls }
    if c.1 ≠ 0 then whileOne fuel s3 (createConsumer fuel env) else createConsumer fuel env s3

/-- Both semaphores created, creation of the producer answers `0` where `pdTRUE`
is `1`. -/
def envProducerFails : Env :=
  { pdTRUE := 1, sem0 := 1, sem1 := 2, producerCreate := 0, consumerCreate := 1 }

/-- Creation of `dataReady` answers `NULL`; everything else succeeds. -/
def envReadyNull : Env :=
  { pdTRUE := 1, sem0 := 0, sem1 := 2, producerCreate := 1, consumerCreate := 1 }

/-- Creation of `dataConsumed` answers `NULL`; everything else succeeds. -/
def envConsumedNull : Env :=
  { pdTRUE := 1, sem0 := 5, sem1 := 0, producerCreate := 1, consumerCreate := 1 }

/-- Whether a run returned. -/
def Run.hasReturned {σ ρ : Type} : Run σ ρ → Bool
  | Run.returned _ _ => true
  | Run.running _ => false

/-- State of a run: the final one, or the one it is still executing in. -/
def Run.state {σ ρ : Type} : Run σ ρ → σ
  | Run.returned s _ => s
  | Run.running s => s

/-- Value returned by a run, if it returned. -/
def Run.value {σ ρ : Type} : Run σ ρ → Option ρ
  | Run.returned _ r => some r
  | Run.running _ => none

/-! ## Observations on logs and schedules -/

/-- Number of gives of `x` in a log. -/
def gives (x : Sem) (log : List Event) : Nat := log.count (Event.give x)

/-- Number of takes of `x` in a log. -/
def takes (x : Sem) (log : List Event) : Nat := log.count (Event.take x)

/-- Number of transfer requests (calls of `dma_memcpy`) in a log. -/
def requests (log : List Event) : Nat := log.count Event.request

/-- Number of executions of the fill loop in a log. -/
def fills (log : List Event) : Nat := log.count Event.fill

/-- Number of finished DMA transfers in a log, whatever their status. -/
def completions (log : List Event) : Nat :=
  log.count (Event.dmaDone true) + log.count (Event.dmaDone false)

/-- Production cycles completed in a log: the producer has come back to the head
of its loop, which it does by taking `dataConsumed`. -/
def cyclesDone (log : List Event) : Nat := takes Sem.consumed log

/-- Replay of the gives and takes of `x` recorded in a log (newest first) on a
semaphore that starts empty. The answer is `some b` when gives and takes strictly
alternate, starting with a give: every give finds the semaphore empty and every
take finds it signaled; `b` tells whether it ends signaled. It is `none` as soon
as a give finds it signaled or a take finds it empty. -/
def alternation (x : Sem) : List Event → Option Bool
  | [] => some false
  | e :: earlier =>
      match alternation x earlier with
      | none => none
      | some b =>
          if e = Event.give x then (if b then none else some true)
          else if e = Event.take x then (if b then some false else none)
          else some b

/-- The consumer is in its Process step: it has taken `dataReady` and has not
yet given `dataConsumed`. -/
def inProcess (s : State) : Bool :=
  decide (s.cpc ≠ ConsumerPc.awaitReady)

/-- Normal operation: a DMA transfer ends with status `0`. -/
def Action.isNormal : Action → Bool
  | Action.dma status => decide (status = 0)
  | _ => true

/-- The schedule of one production cycle, from the head of the producer loop back
to it: fill, toggle, request, end of the transfer, take of the completion signal,
give of `dataReady`, the five statements of the consumer, take of `dataConsumed`. -/
def cycle : List Action :=
  [Action.producer, Action.producer, Action.producer, Action.dma 0, Action.producer,
   Action.producer, Action.consumer, Action.consumer, Action.consumer, Action.consumer,
   Action.consumer, Action.producer]

/-- The schedule that creates the completion signal and then runs `m` cycles. -/
def cyclesSched : Nat → List Action
  | 0 => [Action.producer]
  | m + 1 => cyclesSched m ++ cycle

/-- Control part of a state: program counters, semaphores, DMA engine, halt. -/
def At (s : State) (ppc : ProducerPc) (cpc : ConsumerPc)
    (isr ready consumed busy halted : Bool) : Prop :=
  s.ppc = ppc ∧ s.cpc = cpc ∧ s.isrSemaphore = isr ∧ s.dataReady = ready ∧
  s.dataConsumed = consumed ∧ s.dmaBusy = busy ∧ s.halted = halted

/-- Event counts of a log, each given as its excess over the cycles done. -/
def Counts (log : List Event) (f r d gi ti gr tr gc : Nat) : Prop :=
  fills log = cyclesDone log + f ∧ requests log = cyclesDone log + r ∧
  completions log = cyclesDone log + d ∧
  gives Sem.isr log = cyclesDone log + gi ∧ takes Sem.isr log = cyclesDone log + ti ∧
  gives Sem.ready log = cyclesDone log + gr ∧ takes Sem.ready log = cyclesDone log + tr ∧
  gives Sem.consumed log = cyclesDone log + gc

/-- The fourteen control states the system passes through, in the order of a
production cycle, with the event counts that go with each. The seventh is the
halt after a failed transfer. -/
def Phase (s : State) : Prop :=
  (At s ProducerPc.create ConsumerPc.awaitReady false false false false false ∧
    s.log = []) ∨
  (At s ProducerPc.generate ConsumerPc.awaitReady false false false false false ∧
    Counts s.log 0 0 0 0 0 0 0 0) ∨
  (At s ProducerPc.toggle ConsumerPc.awaitReady false false false false false ∧
    Counts s.log 1 0 0 0 0 0 0 0) ∨
  (At s ProducerPc.requestTransfer ConsumerPc.awaitReady false false false false false ∧
    Counts s.log 1 0 0 0 0 0 0 0) ∨
  (At s ProducerPc.awaitTransferDone ConsumerPc.awaitReady false false false true false ∧
    Counts s.log 1 1 0 0 0 0 0 0) ∨
  (At s ProducerPc.awaitTransferDone ConsumerPc.awaitReady true false false false false ∧
    Counts s.log 1 1 1 1 0 0 0 0) ∨
  (At s ProducerPc.awaitTransferDone ConsumerPc.awaitReady false false false false true ∧
    Counts s.log 1 1 1 0 0 0 0 0) ∨
  (At s ProducerPc.signalReady ConsumerPc.awaitReady false false false false false ∧
    Counts s.log 1 1 1 1 1 0 0 0) ∨
  (At s ProducerPc.awaitConsumed ConsumerPc.awaitReady false true false false false ∧
    Counts s.log 1 1 1 1 1 1 0 0) ∨
  (At s ProducerPc.awaitConsumed ConsumerPc.toggle false false false false false ∧
    Counts s.log 1 1 1 1 1 1 1 0) ∨
  (At s ProducerPc.awaitConsumed ConsumerPc.write false false false false false ∧
    Counts s.log 1 1 1 1 1 1 1 0) ∨
  (At s ProducerPc.awaitConsumed ConsumerPc.delay false false false false false ∧
    Counts s.log 1 1 1 1 1 1 1 0) ∨
  (At s ProducerPc.awaitConsumed ConsumerPc.signalConsumed false false false false false ∧
    Counts s.log 1 1 1 1 1 1 1 0) ∨
  (At s ProducerPc.awaitConsumed ConsumerPc.awaitReady false false true false false ∧
    Counts s.log 1 1 1 1 1 1 1 1)

instance (s : State) (ppc : ProducerPc) (cpc : ConsumerPc)
    (isr ready consumed busy halted : Bool) :
    Decidable (At s ppc cpc isr ready consumed busy halted) := by
  unfold At
  infer_instance

instance (log : List Event) (f r d gi ti gr tr gc : Nat) :
    Decidable (Counts log f r d gi ti gr tr gc) := by
  unfold Counts
  infer_instance

instance (s : State) : Decidable (Phase s) := by
  unfold Phase
  infer_instance

/-- Invariant of the running system: the pass counter is zero, the log of each
semaphore alternates and ends in the state the semaphore is in, and the control
state is one of the fourteen phases. -/
def Inv (s : State) : Prop :=
  s.passes = 0 ∧
  alternation Sem.isr s.log = some s.isrSemaphore ∧
  alternation Sem.ready s.log = some s.dataReady ∧
  alternation Sem.consumed s.log = some s.dataConsumed ∧
  Phase s

instance (s : State) : Decidable (Inv s) := by
  unfold Inv
  infer_instance

/-! ## The fill loop -/

theorem foldl_fillBody (p : Nat) (b : Buffer) (n i : Nat) :
    (List.range n).foldl (fillBody p) b i =
      if i < n then (i + p) % UINT32_MOD else b i := by
  induction n with
  | zero => simp
  | succ n ih =>
    rw [List.range_succ, List.foldl_append]
    simp only [List.foldl_cons, List.foldl_nil, fillBody, store]
    by_cases h : i = n
    · subst h
      simp
    · rw [if_neg h, ih]
      by_cases h1 : i < n
      · simp [h1, Nat.lt_succ_of_lt h1]
      · have h2 : ¬ i < n + 1 := by omega
        simp [h1, h2]

theorem generate_apply (p : Nat) (b : Buffer) (i : Nat) :
    generate p b i = if i < MEM_BUFFER_SIZE then (i + p) % UINT32_MOD else b i :=
  foldl_fillBody p b MEM_BUFFER_SIZE i

/-! ## The invariant -/

theorem inv_init : Inv init := by
  refine ⟨rfl, rfl, rfl, rfl, Or.inl ?_⟩
  exact ⟨⟨rfl, rfl, rfl, rfl, rfl, rfl, rfl⟩, rfl⟩

theorem whileOne_running {σ ρ : Type} (fuel : Nat) (s : σ) (k : σ → Run σ ρ) :
    whileOne fuel s k = Run.running s := by
  induction fuel with
  | zero => rfl
  | succ n ih => simp [whileOne, ih]

theorem inv_next (fuel : Nat) (s : State) (a : Action) (h : Inv s) :
    Inv (next fuel s a) := by
  obtain ⟨ppc, cpc, isr, ready, cons, busy, halted, passes, src, buf, led, log⟩ := s
  obtain ⟨hp, hi, hr, hc, hph⟩ := h
  simp only at hp hi hr hc
  rcases hph with h | h | h | h | h | h | h | h | h | h | h | h | h | h <;>
    obtain ⟨⟨h1, h2, h3, h4, h5, h6, h7⟩, hcnt⟩ := h <;>
    simp only at h1 h2 h3 h4 h5 h6 h7 hcnt <;>
    subst h1 h2 h3 h4 h5 h6 h7 <;>
    rcases a with _ | _ | status
  all_goals try by_cases hs : status = 0
  all_goals
    simp_all [next, step?, prvProducerTask, prvConsumerTask, dmaComplete, set_udma_txfer_done,
      xSemaphoreGive, xSemaphoreTake, toggleLed, dma_memcpy, signaled, setSem, Inv, Phase, At,
      Counts, alternation, gives, takes, requests, fills, completions, cyclesDone,
      whileOne_running]
  all_goals omega

theorem inv_execFrom (fuel : Nat) (sched : List Action) (s : State) (h : Inv s) :
    Inv (execFrom fuel s sched) := by
  induction sched generalizing s with
  | nil => exact h
  | cons a rest ih => exact ih (next fuel s a) (inv_next fuel s a h)

theorem inv_exec (fuel : Nat) (sched : List Action) : Inv (exec fuel sched) :=
  inv_execFrom fuel sched init inv_init

theorem execFrom_append (fuel : Nat) (s : State) (xs ys : List Action) :
    execFrom fuel s (xs ++ ys) = execFrom fuel (execFrom fuel s xs) ys := by
  simp [execFrom, List.foldl_append]

theorem reachable_execFrom (fuel : Nat) (sched : List Action) (s : State)
    (h : Reachable fuel s) : Reachable fuel (execFrom fuel s sched) := by
  induction sched generalizing s with
  | nil => exact h
  | cons a rest ih =>
    refine ih (next fuel s a) ?_
    cases hs : step? fuel s a with
    | none => simpa [next, hs] using h
    | some s1 => simpa [next, hs] using Reachable.step a h hs

/-- The values of `exec` are exactly the states reachable by the step relation. -/
theorem reachable_iff_exec (fuel : Nat) (s : State) :
    Reachable fuel s ↔ ∃ sched : List Action, exec fuel sched = s := by
  constructor
  · intro h
    induction h with
    | start => exact ⟨[], rfl⟩
    | step a _ hs ih =>
      obtain ⟨sched, rfl⟩ := ih
      refine ⟨sched ++ [a], ?_⟩
      have e : exec fuel (sched ++ [a]) = next fuel (exec fuel sched) a := by
        simp [exec, execFrom_append, execFrom]
      rw [e, next, hs]
      rfl
  · rintro ⟨sched, rfl⟩
    exact reachable_execFrom fuel sched init Reachable.start

/-! ## Deterministic generation -/

/-- C4. For every pass counter `p` and every prior content of `src_buffer`, after
the fill loop each cell `i < MEM_BUFFER_SIZE` holds `(i + p) mod 2 ^ 32`; with
`p = 0` the first four cells hold `0, 1, 2, 3` and with `p = 1` they hold
`1, 2, 3, 4`. The Generate statement of the producer runs exactly this loop on
its own `passes` and `src_buffer`. -/
theorem deterministic_generation (p : Nat) (src_buffer : Buffer) :
    (∀ i, i < MEM_BUFFER_SIZE → generate p src_buffer i = (i + p) % UINT32_MOD) ∧
    List.map (generate 0 src_buffer) [0, 1, 2, 3] = [0, 1, 2, 3] ∧
    List.map (generate 1 src_buffer) [0, 1, 2, 3] = [1, 2, 3, 4] ∧
    (∀ s : State, s.ppc = ProducerPc.generate →
      ∃ s1, prvProducerTask s = some s1 ∧
        ∀ i, i < MEM_BUFFER_SIZE → s1.src_buffer i = (i + s.passes) % UINT32_MOD) := by
  refine ⟨?_, ?_, ?_, ?_⟩
  · intro i hi
    rw [generate_apply, if_pos hi]
  · simp [generate_apply, MEM_BUFFER_SIZE, UINT32_MOD]
  · simp [generate_apply, MEM_BUFFER_SIZE, UINT32_MOD]
  · intro s hs
    refine ⟨_, by simp [prvProducerTask, hs]; rfl, ?_⟩
    intro i hi
    simp [generate_apply, hi]

/-- Witness of C4 at `p = 1`, index `3`, on a zeroed staging buffer. -/
theorem deterministic_generation_witness :
    3 < MEM_BUFFER_SIZE ∧ generate 1 (fun _ => 0) 3 = (3 + 1) % UINT32_MOD :=
  ⟨by decide, (deterministic_generation 1 (fun _ => 0)).1 3 (by decide)⟩

/-! ## The hand-off protocol -/

/-- C1. In every execution from system start the gives and takes of `dataReady`
strictly alternate, starting with a give (no give finds it signaled), and so do
those of `dataConsumed`. With `fills` the number of production cycles started,
each of the four events has happened `fills` or `fills - 1` times, takes never
exceed gives, and whenever the producer is back at the head of its loop each of
them has happened exactly once per cycle. -/
theorem mailbox_alternation (fuel : Nat) (sched : List Action) :
    alternation Sem.ready (exec fuel sched).log = some (exec fuel sched).dataReady ∧
    alternation Sem.consumed (exec fuel sched).log = some (exec fuel sched).dataConsumed ∧
    (gives Sem.ready (exec fuel sched).log ≤ fills (exec fuel sched).log ∧
      fills (exec fuel sched).log ≤ takes Sem.consumed (exec fuel sched).log + 1) ∧
    (takes Sem.consumed (exec fuel sched).log ≤ gives Sem.consumed (exec fuel sched).log ∧
      gives Sem.consumed (exec fuel sched).log ≤ takes Sem.ready (exec fuel sched).log ∧
      takes Sem.ready (exec fuel sched).log ≤ gives Sem.ready (exec fuel sched).log) ∧
    ((exec fuel sched).ppc = ProducerPc.generate →
      gives Sem.ready (exec fuel sched).log = fills (exec fuel sched).log ∧
      takes Sem.ready (exec fuel sched).log = fills (exec fuel sched).log ∧
      gives Sem.consumed (exec fuel sched).log = fills (exec fuel sched).log ∧
      takes Sem.consumed (exec fuel sched).log = fills (exec fuel sched).log) := by
  obtain ⟨_, _, hr, hc, hph⟩ := inv_exec fuel sched
  refine ⟨hr, hc, ?_⟩
  generalize exec fuel sched = s at hph
  rcases hph with h | h | h | h | h | h | h | h | h | h | h | h | h | h <;>
    obtain ⟨⟨h1, h2, h3, h4, h5, h6, h7⟩, hcnt⟩ := h
  · simp [hcnt, h1, gives, takes, fills]
  all_goals
    simp only [Counts, cyclesDone] at hcnt
    simp only [h1]
    refine ⟨?_, ?_, ?_⟩ <;> (try intro) <;> (try simp at *) <;> omega

/-- Witness of C1: after the creation of the completion signal and one full
cycle the producer is at the head of its loop. -/
theorem mailbox_alternation_witness :
    (exec 0 (cyclesSched 1)).ppc = ProducerPc.generate ∧
    gives Sem.ready (exec 0 (cyclesSched 1)).log = fills (exec 0 (cyclesSched 1)).log :=
  ⟨by decide, ((mailbox_alternation 0 (cyclesSched 1)).2.2.2.2 (by decide)).1⟩

/-- The replay refuses a second give without a take in between, and a take
before any give. -/
theorem alternation_rejects :
    alternation Sem.ready [Event.give Sem.ready, Event.give Sem.ready] = none ∧
    alternation Sem.ready [Event.take Sem.ready] = none ∧
    alternation Sem.ready [Event.take Sem.ready, Event.give Sem.ready] = some false := by
  decide

/-- C2. In every reachable state in which the consumer is in its Process step
(it has taken `dataReady` and not yet given `dataConsumed`), the producer is at
its take of `dataConsumed` and blocked there, and no DMA transfer is in flight;
so the producer is never at its transfer request while the consumer processes. -/
theorem no_data_race (fuel : Nat) (sched : List Action) :
    (inProcess (exec fuel sched) = true →
      (exec fuel sched).ppc = ProducerPc.awaitConsumed ∧
      prvProducerTask (exec fuel sched) = none ∧
      (exec fuel sched).dmaBusy = false) ∧
    ¬ ((exec fuel sched).ppc = ProducerPc.requestTransfer ∧
        inProcess (exec fuel sched) = true) := by
  obtain ⟨_, _, _, _, hph⟩ := inv_exec fuel sched
  generalize exec fuel sched = s at hph
  rcases hph with h | h | h | h | h | h | h | h | h | h | h | h | h | h <;>
    obtain ⟨⟨h1, h2, h3, h4, h5, h6, h7⟩, _⟩ := h <;>
    simp [inProcess, prvProducerTask, xSemaphoreTake, signaled, h1, h2, h5, h6]

/-- Witness of C2: the state reached when the consumer has just taken
`dataReady` in the first cycle. -/
theorem no_data_race_witness :
    inProcess (exec 0 [Action.producer, Action.producer, Action.producer, Action.producer,
      Action.dma 0, Action.producer, Action.producer, Action.consumer]) = true ∧
    (exec 0 [Action.producer, Action.producer, Action.producer, Action.producer,
      Action.dma 0, Action.producer, Action.producer, Action.consumer]).dmaBusy = false :=
  ⟨by decide, ((no_data_race 0 _).1 (by decide)).2.2⟩

/-- C3. In every reachable state the transfer requests issued are at most the
takes of `dataConsumed` plus one, and at most the finished transfers plus one.
Whenever the producer is at its transfer request, every earlier request has been
answered by a give of `dataConsumed` that the producer has taken: the request of
cycle `k + 1` comes after the take for cycle `k`. -/
theorem backpressure_bound (fuel : Nat) (sched : List Action) :
    requests (exec fuel sched).log ≤ takes Sem.consumed (exec fuel sched).log + 1 ∧
    requests (exec fuel sched).log ≤ completions (exec fuel sched).log + 1 ∧
    ((exec fuel sched).ppc = ProducerPc.requestTransfer →
      requests (exec fuel sched).log = takes Sem.consumed (exec fuel sched).log ∧
      requests (exec fuel sched).log = gives Sem.consumed (exec fuel sched).log ∧
      requests (exec fuel sched).log = completions (exec fuel sched).log) := by
  obtain ⟨_, _, _, _, hph⟩ := inv_exec fuel sched
  generalize exec fuel sched = s at hph
  rcases hph with h | h | h | h | h | h | h | h | h | h | h | h | h | h <;>
    obtain ⟨⟨h1, h2, h3, h4, h5, h6, h7⟩, hcnt⟩ := h
  · simp [hcnt, h1, gives, takes, requests, completions]
  all_goals
    simp only [Counts, cyclesDone] at hcnt
    simp only [h1]
    refine ⟨?_, ?_, ?_⟩ <;> (try intro) <;> (try simp at *) <;> omega

/-- Witness of C3: the producer at the transfer request of the second cycle. -/
theorem backpressure_bound_witness :
    (exec 0 (cyclesSched 1 ++ [Action.producer, Action.producer])).ppc =
      ProducerPc.requestTransfer ∧
    requests (exec 0 (cyclesSched 1 ++ [Action.producer, Action.producer])).log =
      takes Sem.consumed (exec 0 (cyclesSched 1 ++ [Action.producer, Action.producer])).log :=
  ⟨by decide, ((backpressure_bound 0 _).2.2 (by decide)).1⟩

/-! ## Normal operation -/

theorem next_normal_halted (fuel : Nat) (s : State) (a : Action)
    (ha : a.isNormal = true) (h : s.halted = false) : (next fuel s a).halted = false := by
  obtain ⟨ppc, cpc, isr, ready, cons, busy, halted, passes, src, buf, led, log⟩ := s
  simp only at h
  subst h
  rcases a with _ | _ | status
  · cases ppc <;> cases isr <;> cases cons <;>
      simp [next, step?, prvProducerTask, xSemaphoreGive, xSemaphoreTake, toggleLed,
        dma_memcpy, signaled, setSem]
  · cases cpc <;> cases ready <;>
      simp [next, step?, prvConsumerTask, xSemaphoreGive, xSemaphoreTake, toggleLed,
        signaled, setSem]
  · have hs : status = 0 := by simpa [Action.isNormal] using ha
    subst hs
    cases busy <;>
      simp [next, step?, dmaComplete, set_udma_txfer_done, xSemaphoreGive, setSem]

theorem execFrom_normal_halted (fuel : Nat) (sched : List Action) (s : State)
    (hn : sched.all Action.isNormal = true) (h : s.halted = false) :
    (execFrom fuel s sched).halted = false := by
  induction sched generalizing s with
  | nil => exact h
  | cons a rest ih =>
    rw [List.all_cons, Bool.and_eq_true] at hn
    exact ih (next fuel s a) hn.2 (next_normal_halted fuel s a hn.1 h)

theorem enabled_of_inv (fuel : Nat) (s : State) (h : Inv s) (hh : s.halted = false) :
    ∃ a : Action, a.isNormal = true ∧ (step? fuel s a).isSome = true := by
  obtain ⟨ppc, cpc, isr, ready, cons, busy, halted, passes, src, buf, led, log⟩ := s
  obtain ⟨_, _, _, _, hph⟩ := h
  simp only at hh
  subst hh
  rcases hph with h | h | h | h | h | h | h | h | h | h | h | h | h | h <;>
    obtain ⟨⟨h1, h2, h3, h4, h5, h6, h7⟩, _⟩ := h <;>
    simp only at h1 h2 h3 h4 h5 h6 h7 <;>
    subst h1 h2 h3 h4 h5 h6 <;>
    first
      | exact Bool.noConfusion h7
      | (refine ⟨Action.producer, rfl, ?_⟩
         simp [step?, prvProducerTask, xSemaphoreTake, signaled]
         done)
      | (refine ⟨Action.consumer, rfl, ?_⟩
         simp [step?, prvConsumerTask, xSemaphoreTake, signaled]
         done)
      | (refine ⟨Action.dma 0, rfl, ?_⟩
         simp [step?, dmaComplete, set_udma_txfer_done])

set_option maxRecDepth 8192 in
/-- One cycle run from the head of the producer loop, with the consumer waiting
and nothing pending, comes back to the same control state. -/
theorem cycle_run (fuel : Nat) (s : State)
    (h : At s ProducerPc.generate ConsumerPc.awaitReady false false false false false) :
    At (execFrom fuel s cycle) ProducerPc.generate ConsumerPc.awaitReady
        false false false false false ∧
    (execFrom fuel s cycle).log =
      [Event.take Sem.consumed, Event.give Sem.consumed, Event.delay, Event.write0, Event.led,
       Event.take Sem.ready, Event.give Sem.ready, Event.take Sem.isr, Event.give Sem.isr,
       Event.dmaDone true, Event.request, Event.led, Event.fill] ++ s.log := by
  obtain ⟨ppc, cpc, isr, ready, cons, busy, halted, passes, src, buf, led, log⟩ := s
  obtain ⟨h1, h2, h3, h4, h5, h6, h7⟩ := h
  simp only at h1 h2 h3 h4 h5 h6 h7
  subst h1 h2 h3 h4 h5 h6 h7
  simp [execFrom, cycle, next, step?, prvProducerTask, prvConsumerTask, dmaComplete,
    set_udma_txfer_done, xSemaphoreGive, xSemaphoreTake, toggleLed, dma_memcpy, signaled,
    setSem, At]

theorem cyclesSched_run (fuel : Nat) (m : Nat) :
    At (exec fuel (cyclesSched m)) ProducerPc.generate ConsumerPc.awaitReady
        false false false false false ∧
    takes Sem.consumed (exec fuel (cyclesSched m)).log = m ∧
    gives Sem.ready (exec fuel (cyclesSched m)).log = m := by
  induction m with
  | zero =>
    simp [exec, execFrom, cyclesSched, next, step?, prvProducerTask, init, At, takes, gives]
  | succ m ih =>
    obtain ⟨hat, ht, hg⟩ := ih
    have hc := cycle_run fuel (exec fuel (cyclesSched m)) hat
    have he : exec fuel (cyclesSched (m + 1)) =
        execFrom fuel (exec fuel (cyclesSched m)) cycle := by
      simp [exec, cyclesSched, execFrom_append]
    rw [he]
    refine ⟨hc.1, ?_, ?_⟩
    · rw [hc.2]
      simp [takes] at ht ⊢
      omega
    · rw [hc.2]
      simp [gives] at hg ⊢
      omega

theorem cyclesSched_normal (m : Nat) : (cyclesSched m).all Action.isNormal = true := by
  induction m with
  | zero => decide
  | succ m ih =>
    simp only [cyclesSched, List.all_append, ih, Bool.true_and]
    decide

/-- C9. When every DMA transfer ends with status `0`, every reachable state has
an enabled step (of the producer, of the consumer, or the end of the pending
transfer), and for every `M` the schedule of `M` cycles reaches a state at the
head of the producer loop in which exactly `M` cycles are completed and
`dataReady` has been given `M` times. -/
theorem deadlock_free (fuel : Nat) :
    (∀ sched : List Action, sched.all Action.isNormal = true →
      ∃ a : Action, a.isNormal = true ∧ (step? fuel (exec fuel sched) a).isSome = true) ∧
    (∀ M : Nat, (cyclesSched M).all Action.isNormal = true ∧
      (exec fuel (cyclesSched M)).ppc = ProducerPc.generate ∧
      cyclesDone (exec fuel (cyclesSched M)).log = M ∧
      gives Sem.ready (exec fuel (cyclesSched M)).log = M) := by
  constructor
  · intro sched hn
    exact enabled_of_inv fuel _ (inv_exec fuel sched)
      (execFrom_normal_halted fuel sched init hn rfl)
  · intro M
    obtain ⟨hat, ht, hg⟩ := cyclesSched_run fuel M
    exact ⟨cyclesSched_normal M, hat.1, ht, hg⟩

/-- Witness of C9 on the schedule that stops while the transfer is pending. -/
theorem deadlock_free_witness :
    [Action.producer, Action.producer, Action.producer, Action.producer].all
        Action.isNormal = true ∧
    ∃ a : Action, a.isNormal = true ∧
      (step? 0 (exec 0 [Action.producer, Action.producer, Action.producer,
        Action.producer]) a).isSome = true :=
  ⟨by decide, (deadlock_free 0).1 _ (by decide)⟩

/-! ## Failure of a transfer -/

theorem execFrom_halted (fuel : Nat) (post : List Action) (s : State)
    (h : s.halted = true) : execFrom fuel s post = s := by
  induction post with
  | nil => rfl
  | cons a rest ih =>
    have hn : next fuel s a = s := by simp [next, step?, h]
    simpa [execFrom, hn] using ih

theorem next_failed (fuel : Nat) (status : Int) (hs : status ≠ 0) (s : State) (h : Inv s)
    (he : (step? fuel s (Action.dma status)).isSome = true) :
    (next fuel s (Action.dma status)).halted = true ∧
    (next fuel s (Action.dma status)).log = Event.dmaDone false :: s.log ∧
    prvProducerTask (next fuel s (Action.dma status)) = none ∧
    prvConsumerTask (next fuel s (Action.dma status)) = none := by
  obtain ⟨ppc, cpc, isr, ready, cons, busy, halted, passes, src, buf, led, log⟩ := s
  obtain ⟨_, _, _, _, hph⟩ := h
  rcases hph with h | h | h | h | h | h | h | h | h | h | h | h | h | h <;>
    obtain ⟨⟨h1, h2, h3, h4, h5, h6, h7⟩, _⟩ := h <;>
    simp only at h1 h2 h3 h4 h5 h6 h7 <;>
    subst h1 h2 h3 h4 h5 h6 h7 <;>
    simp_all [next, step?, dmaComplete, set_udma_txfer_done, whileOne_running,
      prvProducerTask, prvConsumerTask, xSemaphoreTake, signaled]

/-- C6. For every status other than `0` the callback is still running after any
amount of fuel, in the state it was entered in: it never returns and gives
nothing. For status `0` it returns, having given `isrSemaphore` exactly once.
In every execution, once a transfer has ended with a status other than `0` the
state never changes again, whatever is scheduled: the processor is halted, the
producer is blocked in its take of `isrSemaphore`, the consumer in its take of
`dataReady`, and the log, hence the number of gives of `dataReady` and of
`dataConsumed`, stays as it is. -/
theorem fail_stop (fuel : Nat) (status : Int) (hs : status ≠ 0) :
    (∀ s : State, set_udma_txfer_done fuel status s = Run.running s) ∧
    (∀ s : State, ∃ s1, set_udma_txfer_done fuel 0 s = Run.returned s1 () ∧
      s1.isrSemaphore = true ∧ s1.log = Event.give Sem.isr :: s.log) ∧
    (∀ pre post : List Action,
      (step? fuel (exec fuel pre) (Action.dma status)).isSome = true →
      exec fuel (pre ++ Action.dma status :: post) = exec fuel (pre ++ [Action.dma status]) ∧
      (exec fuel (pre ++ [Action.dma status])).halted = true ∧
      (exec fuel (pre ++ [Action.dma status])).log = Event.dmaDone false :: (exec fuel pre).log ∧
      prvProducerTask (exec fuel (pre ++ [Action.dma status])) = none ∧
      prvConsumerTask (exec fuel (pre ++ [Action.dma status])) = none ∧
      gives Sem.ready (exec fuel (pre ++ Action.dma status :: post)).log =
        gives Sem.ready (exec fuel pre).log ∧
      gives Sem.consumed (exec fuel (pre ++ Action.dma status :: post)).log =
        gives Sem.consumed (exec fuel pre).log) := by
  refine ⟨?_, ?_, ?_⟩
  · intro s
    simp [set_udma_txfer_done, hs, whileOne_running]
  · intro s
    exact ⟨xSemaphoreGive Sem.isr s, by simp [set_udma_txfer_done], rfl, rfl⟩
  · intro pre post he
    obtain ⟨h1, h2, h3, h4⟩ := next_failed fuel status hs _ (inv_exec fuel pre) he
    have e1 : exec fuel (pre ++ [Action.dma status]) =
        next fuel (exec fuel pre) (Action.dma status) := by
      simp [exec, execFrom_append, execFrom]
    have e2 : exec fuel (pre ++ Action.dma status :: post) =
        next fuel (exec fuel pre) (Action.dma status) := by
      have : exec fuel (pre ++ Action.dma status :: post) =
          execFrom fuel (next fuel (exec fuel pre) (Action.dma status)) post := by
        simp [exec, execFrom_append, execFrom]
      rw [this, execFrom_halted fuel post _ h1]
    rw [e1, e2]
    refine ⟨rfl, h1, h2, h3, h4, ?_, ?_⟩
    · rw [h2]
      simp [gives]
    · rw [h2]
      simp [gives]

/-- Witness of C6: the first transfer ends with status `1`. -/
theorem fail_stop_witness :
    (1 : Int) ≠ 0 ∧
    (exec 3 ([Action.producer, Action.producer, Action.producer, Action.producer] ++
      Action.dma 1 :: [Action.producer, Action.consumer])).halted = true :=
  ⟨by decide, by
    have h := (fail_stop 3 1 (by decide)).2.2
      [Action.producer, Action.producer, Action.producer, Action.producer]
      [Action.producer, Action.consumer] (by decide)
    rw [h.1]
    exact h.2.1⟩

/-! ## The Process step of the consumer -/

/-- C10. From any state in which the consumer has just taken `dataReady`, whatever
the shared buffer holds, the Process step runs to its end: cell `0` of the shared
buffer becomes `0`, every other cell keeps its content, the staging buffer is
neither written nor read (replacing it beforehand changes nothing but itself),
and `dataConsumed` is given exactly once, as the last call, after the write and
the delay. -/
theorem consumer_process_frame (s : State) (h : s.cpc = ConsumerPc.toggle) :
    ∃ s1, consumerProcess s = some s1 ∧
      s1.buffer 0 = 0 ∧ (∀ i, i ≠ 0 → s1.buffer i = s.buffer i) ∧
      s1.src_buffer = s.src_buffer ∧
      (∀ b : Buffer, consumerProcess { s with src_buffer := b } =
        some { s1 with src_buffer := b }) ∧
      s1.log = [Event.give Sem.consumed, Event.delay, Event.write0, Event.led] ++ s.log ∧
      s1.dataConsumed = true ∧ s1.cpc = ConsumerPc.awaitReady ∧
      s1.ppc = s.ppc ∧ s1.passes = s.passes ∧ s1.dataReady = s.dataReady ∧
      s1.isrSemaphore = s.isrSemaphore ∧ s1.dmaBusy = s.dmaBusy := by
  obtain ⟨ppc, cpc, isr, ready, cons, busy, halted, passes, src, buf, led, log⟩ := s
  simp only at h
  subst h
  refine ⟨_, rfl, ?_⟩
  simp [store, xSemaphoreGive, setSem, toggleLed, consumerProcess, prvConsumerTask]
  intro i hi
  simp [hi]

/-- Witness of C10 on the state reached when the consumer has just taken
`dataReady` in the first cycle. -/
theorem consumer_process_frame_witness :
    (exec 0 [Action.producer, Action.producer, Action.producer, Action.producer,
      Action.dma 0, Action.producer, Action.producer, Action.consumer]).cpc =
        ConsumerPc.toggle ∧
    ∃ s1, consumerProcess (exec 0 [Action.producer, Action.producer, Action.producer,
      Action.producer, Action.dma 0, Action.producer, Action.producer, Action.consumer]) =
        some s1 ∧ s1.buffer 0 = 0 :=
  ⟨by decide, by
    obtain ⟨s1, h1, h2, _⟩ := consumer_process_frame (exec 0 [Action.producer,
      Action.producer, Action.producer, Action.producer, Action.dma 0, Action.producer,
      Action.producer, Action.consumer]) (by decide)
    exact ⟨s1, h1, h2⟩⟩

/-! ## Start-up -/

theorem taskCreateCond_eval (created pdTRUE : Int) (tr : Nat) :
    (taskCreateCond created pdTRUE).eval tr =
      if created ≠ pdTRUE then ((1 : Int), 1) else ((0 : Int), 0) := by
  by_cases h : created = pdTRUE <;>
    simp [taskCreateCond, CExpr.eval, h, UINT32_MOD]

/-- The two readings of the condition agree on its truth value and differ in what
they leave in `task_result`: a failed creation with status `-1` leaves `1` as
written, and `4294967295` in the other reading. -/
theorem taskCreateCond_readings :
    (taskCreateCond (-1) 1).eval 0 = (1, 1) ∧
    (taskCreateCondStatusStored (-1) 1).eval 0 = (1, 4294967295) ∧
    (taskCreateCond 1 1).eval 0 = (0, 0) ∧
    (taskCreateCondStatusStored 1 1).eval 0 = (0, 1) := by
  decide

/-- C7. With both hand-off semaphores created, for the condition as written:
if the creation of the producer does not return `pdTRUE`, `main_rtos` never
returns, never creates the consumer and never starts the scheduler; if it does
and the creation of the consumer does not, `main_rtos` never returns and never
starts the scheduler; if both return `pdTRUE`, `main_rtos` has created both
tasks and started the scheduler. -/
theorem task_creation_failure_fatal (fuel : Nat) (env : Env)
    (h0 : env.sem0 ≠ 0) (h1 : env.sem1 ≠ 0) :
    (env.producerCreate ≠ env.pdTRUE →
      (main_rtos fuel env).hasReturned = false ∧
      MainEvent.taskCreate Task.producer ∈ (main_rtos fuel env).state.calls ∧
      MainEvent.taskCreate Task.consumer ∉ (main_rtos fuel env).state.calls ∧
      MainEvent.startScheduler ∉ (main_rtos fuel env).state.calls) ∧
    (env.producerCreate = env.pdTRUE → env.consumerCreate ≠ env.pdTRUE →
      (main_rtos fuel env).hasReturned = false ∧
      MainEvent.taskCreate Task.consumer ∈ (main_rtos fuel env).state.calls ∧
      MainEvent.startScheduler ∉ (main_rtos fuel env).state.calls) ∧
    (env.producerCreate = env.pdTRUE → env.consumerCreate = env.pdTRUE →
      MainEvent.taskCreate Task.producer ∈ (main_rtos fuel env).state.calls ∧
      MainEvent.taskCreate Task.consumer ∈ (main_rtos fuel env).state.calls ∧
      MainEvent.startScheduler ∈ (main_rtos fuel env).state.calls) := by
  refine ⟨?_, ?_, ?_⟩
  · intro hp
    simp [main_rtos, h0, h1, taskCreateCond_eval, hp, whileOne_running, Run.hasReturned,
      Run.state]
  · intro hp hc
    simp [main_rtos, createConsumer, h0, h1, taskCreateCond_eval, hp, hc, whileOne_running,
      Run.hasReturned, Run.state]
  · intro hp hc
    simp [main_rtos, createConsumer, startScheduler, h0, h1, taskCreateCond_eval, hp, hc,
      whileOne_running, Run.state]

/-- Witness of C7: both semaphores created, creation of the producer answers `0`
where `pdTRUE` is `1`. -/
theorem task_creation_failure_fatal_witness :
    envProducerFails.sem0 ≠ 0 ∧ envProducerFails.sem1 ≠ 0 ∧
    envProducerFails.producerCreate ≠ envProducerFails.pdTRUE ∧
    (main_rtos 10 envProducerFails).hasReturned = false ∧
    MainEvent.startScheduler ∉ (main_rtos 10 envProducerFails).state.calls := by
  have h := (task_creation_failure_fatal 10 envProducerFails (by decide) (by decide)).1
    (by decide)
  exact ⟨by decide, by decide, by decide, h.1, h.2.2.2⟩

/-- Counterexample to C8 as stated: with `NULL` returned for `dataReady`,
`main_rtos` does not stay in a loop, it returns `1`. -/
theorem semaphore_failure_returns :
    envReadyNull.sem0 = 0 ∧
    (main_rtos 10 envReadyNull).hasReturned = true ∧
    (main_rtos 10 envReadyNull).value = some 1 := by
  decide

/-- C8, amended. If the creation of `dataReady` or of `dataConsumed` returns
`NULL`, `main_rtos` returns `1` at once, for any fuel: it has only set up the
hardware and called `xSemaphoreCreateBinary` twice, so no task is created and
the scheduler is not started. -/
theorem semaphore_failure_no_task (fuel : Nat) (env : Env)
    (h : env.sem0 = 0 ∨ env.sem1 = 0) :
    (main_rtos fuel env).hasReturned = true ∧
    (main_rtos fuel env).value = some 1 ∧
    (main_rtos fuel env).state.calls =
      [MainEvent.semaphoreCreate, MainEvent.semaphoreCreate, MainEvent.init_dma_memcpy,
       MainEvent.init_dma, MainEvent.init_led, MainEvent.clockFreqSet] ∧
    (∀ t, MainEvent.taskCreate t ∉ (main_rtos fuel env).state.calls) ∧
    MainEvent.startScheduler ∉ (main_rtos fuel env).state.calls := by
  have e : main_rtos fuel env = Run.returned
      { pcSemaphores0 := env.sem0, pcSemaphores1 := env.sem1, task_result := 0,
        calls := [MainEvent.semaphoreCreate, MainEvent.semaphoreCreate,
          MainEvent.init_dma_memcpy, MainEvent.init_dma, MainEvent.init_led,
          MainEvent.clockFreqSet] } 1 := by
    simp [main_rtos, h]
  rw [e]
  simp [Run.hasReturned, Run.value, Run.state]

/-- Witness of C8, amended: `NULL` returned for `dataConsumed`. -/
theorem semaphore_failure_no_task_witness :
    (envConsumedNull.sem0 = 0 ∨ envConsumedNull.sem1 = 0) ∧
    (main_rtos 10 envConsumedNull).value = some 1 :=
  ⟨Or.inr rfl, (semaphore_failure_no_task 10 envConsumedNull (Or.inr rfl)).2.1⟩

/-! ## The pass counter -/

theorem next_generate (fuel : Nat) (s : State)
    (h : At s ProducerPc.generate ConsumerPc.awaitReady false false false false false) :
    (next fuel s Action.producer).src_buffer = generate s.passes s.src_buffer ∧
    (next fuel s Action.producer).log = Event.fill :: s.log := by
  obtain ⟨ppc, cpc, isr, ready, cons, busy, halted, passes, src, buf, led, log⟩ := s
  obtain ⟨h1, h2, h3, h4, h5, h6, h7⟩ := h
  simp only at h1 h2 h3 h4 h5 h6 h7
  subst h1 h2 h3 h4 h5 h6 h7
  simp [next, step?, prvProducerTask]

/-- C5, what the code does. The pass counter is `0` in every reachable state: no
statement of the producer writes `passes`. So the staging buffer generated in
cycle `k` holds `i` in cell `i` for every `k`, not `i + k`; in the second cycle
(`k = 1`, one cycle completed) cell `0` holds `0` where `0 + 1` is claimed, and
the buffers of the first two cycles are equal. -/
theorem pass_counter_never_incremented :
    (∀ (fuel : Nat) (sched : List Action), (exec fuel sched).passes = 0) ∧
    (∀ (fuel k i : Nat), i < MEM_BUFFER_SIZE →
      cyclesDone (exec fuel (cyclesSched k ++ [Action.producer])).log = k ∧
      fills (exec fuel (cyclesSched k ++ [Action.producer])).log = k + 1 ∧
      (exec fuel (cyclesSched k ++ [Action.producer])).src_buffer i = i) ∧
    (exec 0 (cyclesSched 1 ++ [Action.producer])).src_buffer 0 = 0 ∧
    (exec 0 (cyclesSched 1 ++ [Action.producer])).src_buffer 0 ≠ (0 + 1) % UINT32_MOD := by
  have hall : ∀ (fuel k i : Nat), i < MEM_BUFFER_SIZE →
      cyclesDone (exec fuel (cyclesSched k ++ [Action.producer])).log = k ∧
      fills (exec fuel (cyclesSched k ++ [Action.producer])).log = k + 1 ∧
      (exec fuel (cyclesSched k ++ [Action.producer])).src_buffer i = i := by
    intro fuel k i hi
    obtain ⟨hat, ht, _⟩ := cyclesSched_run fuel k
    obtain ⟨hp, _, _, _, hph⟩ := inv_exec fuel (cyclesSched k)
    have e : exec fuel (cyclesSched k ++ [Action.producer]) =
        next fuel (exec fuel (cyclesSched k)) Action.producer := by
      simp [exec, execFrom_append, execFrom]
    obtain ⟨hsrc, hlog⟩ := next_generate fuel _ hat
    have hf : fills (exec fuel (cyclesSched k)).log = k := by
      obtain ⟨a1, a2, a3, a4, a5, a6, a7⟩ := hat
      rcases hph with h | h | h | h | h | h | h | h | h | h | h | h | h | h <;>
        obtain ⟨⟨b1, b2, b3, b4, b5, b6, b7⟩, hcnt⟩ := h <;>
        simp_all [Counts, cyclesDone]
    rw [e, hsrc, hlog, hp, generate_apply, if_pos hi]
    refine ⟨?_, ?_, ?_⟩
    · simpa [cyclesDone, takes] using ht
    · simpa [fills] using hf
    · have : i < UINT32_MOD := by
        simp only [MEM_BUFFER_SIZE] at hi
        simp only [UINT32_MOD]
        omega
      simpa using Nat.mod_eq_of_lt this
  refine ⟨fun fuel sched => (inv_exec fuel sched).1, hall, ?_, ?_⟩
  · exact (hall 0 1 0 (by decide)).2.2
  · rw [(hall 0 1 0 (by decide)).2.2]
    decide

end DmaMemcpy
